import Mathlib

/-!
Shallow embedding of the ClawFi SDK signal utilities (the risk-scoring engine
of `src/signals.ts`) together with proofs of its specified properties.

JS numbers are modelled by `ℚ`; all weights, factors and combined scores in
this module are small decimal fractions.  Property access on the two lookup
objects is modelled by `Option ℚ` (`none` is JS `undefined`), so that the
documented runtime fallbacks for unrecognized enumeration values are captured
exactly as the code computes them.
-/

namespace ClawFi

/-- A detected risk or market event for a token (`Signal` in `types.ts`).
`type` and `severity` are string-literal unions in TypeScript; they are
embedded as strings so that the runtime fallback behaviour for unrecognized
values can be stated. `metadata` values are opaque; only their presence can
matter, so they are embedded as strings. -/
structure Signal where
  id : String
  type : String
  severity : String
  title : String
  summary : String
  details : Option String := none
  timestamp : Int := 0
  metadata : Option (List (String × String)) := none
deriving Repr, DecidableEq

/-- The `SEVERITY_WEIGHTS` object; property access yields `none` (JS
`undefined`) for keys absent from the table. -/
def SEVERITY_WEIGHTS : String → Option ℚ
  | "info" => some 0
  | "low" => some 1
  | "medium" => some 2
  | "high" => some 3
  | "critical" => some 5
  | _ => none

/-- The `TYPE_RISK_FACTORS` object; property access yields `none` (JS
`undefined`) for keys absent from the table. -/
def TYPE_RISK_FACTORS : String → Option ℚ
  | "whale_movement" => some 1.2
  | "liquidity_change" => some 1.5
  | "holder_concentration" => some 1.3
  | "contract_risk" => some 2.0
  | "price_manipulation" => some 1.8
  | "rugpull_risk" => some 3.0
  | "honeypot" => some 3.0
  | "mint_authority" => some 2.5
  | "social_sentiment" => some 0.8
  | _ => none

/-- JS `x || d` applied to a possibly-undefined number: `undefined` and `0`
are both falsy, so both fall through to the default. -/
def jsOr (x : Option ℚ) (d : ℚ) : ℚ :=
  match x with
  | some v => if v = 0 then d else v
  | none => d

/-- JS `Math.round`: round half towards positive infinity. -/
def jsRound (q : ℚ) : ℤ := ⌊q + 1 / 2⌋

/-- JS `a >= b` where either operand may be `undefined`: any comparison
involving `undefined` is false. -/
def jsGE (a b : Option ℚ) : Bool :=
  match a, b with
  | some x, some y => decide (y ≤ x)
  | _, _ => false

/-- `SEVERITY_WEIGHTS[signal.severity] || 1` from `calculateRiskScore`. -/
def severityWeight (signal : Signal) : ℚ :=
  jsOr (SEVERITY_WEIGHTS signal.severity) 1

/-- `TYPE_RISK_FACTORS[signal.type] || 1` from `calculateRiskScore`. -/
def typeFactor (signal : Signal) : ℚ :=
  jsOr (TYPE_RISK_FACTORS signal.type) 1

/-- `signalScore = severityWeight * typeFactor` from `calculateRiskScore`. -/
def signalScore (signal : Signal) : ℚ :=
  severityWeight signal * typeFactor signal

/-- `calculateRiskScore` from `signals.ts`: the loop accumulates the sum of
the per-signal scores in `totalScore` and their running maximum (starting
from `0`) in `maxScore`. -/
def calculateRiskScore (signals : List Signal) : ℚ :=
  if signals.length = 0 then 0
  else
    let scores := signals.map signalScore
    let totalScore := scores.sum
    let maxScore := scores.foldl max 0
    let avgScore := totalScore / (signals.length : ℚ)
    let combinedScore := avgScore * 0.6 + maxScore * 0.4
    ((min 100 (jsRound (combinedScore * 10)) : ℤ) : ℚ)

/-- `filterBySeverity` from `signals.ts`; the raw table accesses (no `|| 1`
fallback here) compare as JS numbers-or-undefined. -/
def filterBySeverity (signals : List Signal) (minSeverity : String) : List Signal :=
  signals.filter fun s => jsGE (SEVERITY_WEIGHTS s.severity) (SEVERITY_WEIGHTS minSeverity)

/-- `filterByType` from `signals.ts`. -/
def filterByType (signals : List Signal) (types : List String) : List Signal :=
  signals.filter fun s => types.contains s.type

/-- `getCriticalSignals` from `signals.ts`. -/
def getCriticalSignals (signals : List Signal) : List Signal :=
  signals.filter fun s => s.severity == "critical" || s.severity == "high"

/-- Severity weight as used by the sort comparator.  The TypeScript `Signal`
type confines `severity` to the five table keys, on which `getD 0` never
fires. -/
def tableWeight (sev : String) : ℚ := (SEVERITY_WEIGHTS sev).getD 0

/-- The sort comparator `(a, b) => SEVERITY_WEIGHTS[b.severity] - SEVERITY_WEIGHTS[a.severity]`
admits `a` before `b` exactly when it returns `≤ 0`, i.e. when
`weight(b) ≤ weight(a)`: descending weight. -/
def sevRel (a b : Signal) : Prop :=
  tableWeight b.severity ≤ tableWeight a.severity

instance : DecidableRel sevRel := fun _ _ => inferInstanceAs (Decidable (_ ≤ _))

/-- `sortBySeverity` from `signals.ts`:
`[...signals].sort((a, b) => SEVERITY_WEIGHTS[b.severity] - SEVERITY_WEIGHTS[a.severity])`.
`Array.prototype.sort` is required to be stable (ES2019), modelled by a
stable insertion sort. -/
def sortBySeverity (signals : List Signal) : List Signal :=
  signals.insertionSort sevRel

/-- `isHighRisk` from `signals.ts`. -/
def isHighRisk (signals : List Signal) : Bool :=
  let riskScore := calculateRiskScore signals
  decide (70 ≤ riskScore) ||
    signals.any fun s =>
      s.type == "honeypot" || s.type == "rugpull_risk" || s.severity == "critical"

/-- `getRiskLevel` from `signals.ts`. -/
def getRiskLevel (score : ℚ) : String :=
  if score < 20 then "safe"
  else if score < 40 then "low"
  else if score < 60 then "medium"
  else if score < 80 then "high"
  else "critical"

/-- The `severityEmoji` object from `formatSignal` (the glyph strings are
copied byte-for-byte from the source file). -/
def severityEmoji : String → Option String
  | "info" => some ("‚ÑπÔ∏è")
  | "low" => some ("üü¢")
  | "medium" => some ("üü°")
  | "high" => some ("üü†")
  | "critical" => some ("üî¥")
  | _ => none

/-- `formatSignal` from `signals.ts`; interpolating JS `undefined` into a
template literal prints the string `undefined`. -/
def formatSignal (signal : Signal) : String :=
  (severityEmoji signal.severity).getD ("undefined") ++ " [" ++ signal.severity.toUpper
    ++ "] " ++ signal.title ++ ": " ++ signal.summary

/-- Short constructor for concrete test signals. -/
def mkSignal (i ty sev : String) : Signal :=
  { id := i, type := ty, severity := sev, title := "title", summary := "summary" }

/-! ### Basic bounds on the lookup tables -/

lemma SEVERITY_WEIGHTS_bounds (sev : String) :
    SEVERITY_WEIGHTS sev = none ∨
      ∃ w, SEVERITY_WEIGHTS sev = some w ∧ 0 ≤ w ∧ w ≤ 5 := by
  unfold SEVERITY_WEIGHTS
  split
  all_goals first
    | exact Or.inl rfl
    | exact Or.inr ⟨_, rfl, by norm_num, by norm_num⟩

lemma TYPE_RISK_FACTORS_bounds (ty : String) :
    TYPE_RISK_FACTORS ty = none ∨
      ∃ f, TYPE_RISK_FACTORS ty = some f ∧ 0 ≤ f ∧ f ≤ 3 := by
  unfold TYPE_RISK_FACTORS
  split
  all_goals first
    | exact Or.inl rfl
    | exact Or.inr ⟨_, rfl, by norm_num, by norm_num⟩

lemma jsOr_nonneg_le {x : Option ℚ} {d hi : ℚ} (hd0 : 0 ≤ d) (hdh : d ≤ hi)
    (hx : x = none ∨ ∃ w, x = some w ∧ 0 ≤ w ∧ w ≤ hi) :
    0 ≤ jsOr x d ∧ jsOr x d ≤ hi := by
  rcases hx with rfl | ⟨w, rfl, h0, hh⟩
  · simpa [jsOr] using ⟨hd0, hdh⟩
  · simp only [jsOr]
    split_ifs with h
    · exact ⟨hd0, hdh⟩
    · exact ⟨h0, hh⟩

lemma severityWeight_bounds (s : Signal) :
    0 ≤ severityWeight s ∧ severityWeight s ≤ 5 :=
  jsOr_nonneg_le (by norm_num) (by norm_num) (SEVERITY_WEIGHTS_bounds s.severity)

lemma typeFactor_bounds (s : Signal) :
    0 ≤ typeFactor s ∧ typeFactor s ≤ 3 :=
  jsOr_nonneg_le (by norm_num) (by norm_num) (TYPE_RISK_FACTORS_bounds s.type)

lemma signalScore_nonneg (s : Signal) : 0 ≤ signalScore s :=
  mul_nonneg (severityWeight_bounds s).1 (typeFactor_bounds s).1

/-- The largest possible per-signal score is `5 × 3 = 15`. -/
lemma signalScore_le_15 (s : Signal) : signalScore s ≤ 15 := by
  have h := mul_le_mul (severityWeight_bounds s).2 (typeFactor_bounds s).2
    (typeFactor_bounds s).1 (by norm_num : (0:ℚ) ≤ 5)
  calc signalScore s ≤ 5 * 3 := h
    _ = 15 := by norm_num

/-! ### The running maximum -/

lemma le_foldl_max (l : List ℚ) (a : ℚ) : a ≤ l.foldl max a := by
  induction l generalizing a with
  | nil => exact le_refl a
  | cons x t ih => exact le_trans (le_max_left a x) (ih (max a x))

/-! ### Characterization and bounds of `calculateRiskScore` -/

lemma calculateRiskScore_nil : calculateRiskScore [] = 0 := rfl

lemma calculateRiskScore_eq (xs : List Signal) (h : xs ≠ []) :
    calculateRiskScore xs =
      ((min 100 (jsRound ((((xs.map signalScore).sum / (xs.length : ℚ)) * 0.6 +
        ((xs.map signalScore).foldl max 0) * 0.4) * 10)) : ℤ) : ℚ) := by
  simp only [calculateRiskScore]
  rw [if_neg (by simpa using h)]

lemma combined_nonneg (xs : List Signal) :
    0 ≤ ((xs.map signalScore).sum / (xs.length : ℚ)) * 0.6 +
      ((xs.map signalScore).foldl max 0) * 0.4 := by
  have hsum : 0 ≤ (xs.map signalScore).sum := by
    apply List.sum_nonneg
    intro x hx
    rcases List.mem_map.1 hx with ⟨s, _, rfl⟩
    exact signalScore_nonneg s
  have hmax : (0:ℚ) ≤ (xs.map signalScore).foldl max 0 := le_foldl_max _ 0
  have hlen : (0:ℚ) ≤ (xs.length : ℚ) := Nat.cast_nonneg _
  have havg : 0 ≤ (xs.map signalScore).sum / (xs.length : ℚ) := div_nonneg hsum hlen
  positivity

lemma calculateRiskScore_nonneg (xs : List Signal) : 0 ≤ calculateRiskScore xs := by
  rcases eq_or_ne xs [] with rfl | h
  · rw [calculateRiskScore_nil]
  · rw [calculateRiskScore_eq xs h]
    have h0 : (0:ℤ) ≤ min 100 (jsRound ((((xs.map signalScore).sum / (xs.length : ℚ)) * 0.6 +
        ((xs.map signalScore).foldl max 0) * 0.4) * 10)) := by
      apply le_min (by norm_num)
      rw [jsRound, Int.le_floor]
      have := combined_nonneg xs
      push_cast
      nlinarith
    exact_mod_cast h0

lemma calculateRiskScore_le_100 (xs : List Signal) : calculateRiskScore xs ≤ 100 := by
  rcases eq_or_ne xs [] with rfl | h
  · rw [calculateRiskScore_nil]; norm_num
  · rw [calculateRiskScore_eq xs h]
    have : (min 100 (jsRound ((((xs.map signalScore).sum / (xs.length : ℚ)) * 0.6 +
        ((xs.map signalScore).foldl max 0) * 0.4) * 10)) : ℤ) ≤ 100 := min_le_left _ _
    exact_mod_cast this

/-! ### Monotonicity machinery for appending a maximal signal -/

lemma signalScore_critical_rugpull (r : Signal) (hsev : r.severity = "critical")
    (hty : r.type = "rugpull_risk") : signalScore r = 15 := by
  simp only [signalScore, severityWeight, typeFactor, hsev, hty, SEVERITY_WEIGHTS,
    TYPE_RISK_FACTORS, jsOr]
  norm_num

lemma sum_le_fifteen_mul_length (xs : List Signal) :
    (xs.map signalScore).sum ≤ 15 * (xs.length : ℚ) := by
  have h := List.sum_le_card_nsmul (xs.map signalScore) 15 ?_
  · rw [List.length_map] at h
    rw [nsmul_eq_mul] at h
    linarith
  · intro x hx
    rcases List.mem_map.1 hx with ⟨s, _, rfl⟩
    exact signalScore_le_15 s

/-- Arithmetic core of the monotonicity law: appending one signal of the
maximal per-signal score 15 never lowers the blended, rounded, capped
score. -/
lemma score_formula_mono (T M : ℚ) (n : ℕ) (hn : 0 < n) (hT : T ≤ 15 * (n : ℚ)) :
    ((min 100 (jsRound ((T / (n : ℚ) * 0.6 + M * 0.4) * 10)) : ℤ) : ℚ) ≤
      ((min 100 (jsRound (((T + 15) / ((n : ℚ) + 1) * 0.6 + max M 15 * 0.4) * 10)) : ℤ) : ℚ) := by
  have hnq : (0:ℚ) < (n : ℚ) := by exact_mod_cast hn
  have havg : T / (n : ℚ) ≤ (T + 15) / ((n : ℚ) + 1) := by
    rw [div_le_div_iff hnq (by linarith)]
    nlinarith
  have hM : M ≤ max M 15 := le_max_left _ _
  have hc : (T / (n : ℚ) * 0.6 + M * 0.4) * 10 + 1 / 2 ≤
      ((T + 15) / ((n : ℚ) + 1) * 0.6 + max M 15 * 0.4) * 10 + 1 / 2 := by nlinarith
  have hfl : jsRound ((T / (n : ℚ) * 0.6 + M * 0.4) * 10) ≤
      jsRound (((T + 15) / ((n : ℚ) + 1) * 0.6 + max M 15 * 0.4) * 10) :=
    Int.floor_le_floor hc
  exact_mod_cast min_le_min (le_refl (100:ℤ)) hfl

lemma calculateRiskScore_append_max (xs : List Signal) (r : Signal)
    (hr : signalScore r = 15) :
    calculateRiskScore xs ≤ calculateRiskScore (xs ++ [r]) := by
  rcases eq_or_ne xs [] with rfl | h
  · rw [calculateRiskScore_nil]
    exact calculateRiskScore_nonneg _
  · rw [calculateRiskScore_eq xs h, calculateRiskScore_eq (xs ++ [r]) (by simp)]
    have hlen : xs.length ≠ 0 := by simpa using h
    simp only [List.map_append, List.map_cons, List.map_nil, List.sum_append,
      List.sum_cons, List.sum_nil, List.foldl_append, List.foldl_cons, List.foldl_nil,
      List.length_append, List.length_cons, List.length_nil, hr, add_zero, zero_add]
    have := score_formula_mono ((xs.map signalScore).sum)
      ((xs.map signalScore).foldl max 0) xs.length (Nat.pos_of_ne_zero hlen)
      (sum_le_fifteen_mul_length xs)
    convert this using 5
    push_cast
    ring

/-! ### Case analysis on recognized severities -/

lemma severity_of_isSome {sev : String} (h : (SEVERITY_WEIGHTS sev).isSome = true) :
    sev = "info" ∨ sev = "low" ∨ sev = "medium" ∨ sev = "high" ∨ sev = "critical" := by
  unfold SEVERITY_WEIGHTS at h
  split at h <;> simp_all

lemma jsGE_eq_tableWeight {sev m : String} (hs : (SEVERITY_WEIGHTS sev).isSome = true)
    (hm : (SEVERITY_WEIGHTS m).isSome = true) :
    jsGE (SEVERITY_WEIGHTS sev) (SEVERITY_WEIGHTS m) =
      decide (tableWeight m ≤ tableWeight sev) := by
  obtain ⟨w, hw⟩ := Option.isSome_iff_exists.1 hs
  obtain ⟨v, hv⟩ := Option.isSome_iff_exists.1 hm
  simp [jsGE, hw, hv, tableWeight]

/-! ### Sorting: permutation, order, stability -/

instance : IsTotal Signal sevRel :=
  ⟨fun a b => le_total (tableWeight b.severity) (tableWeight a.severity)⟩

instance : IsTrans Signal sevRel :=
  ⟨fun _ _ _ hab hbc => le_trans hbc hab⟩

lemma sortBySeverity_cons (a : Signal) (t : List Signal) :
    sortBySeverity (a :: t) = (sortBySeverity t).orderedInsert sevRel a := rfl

lemma sortBySeverity_perm (xs : List Signal) : List.Perm (sortBySeverity xs) xs :=
  List.perm_insertionSort sevRel xs

lemma sortBySeverity_sorted (xs : List Signal) :
    List.Sorted sevRel (sortBySeverity xs) :=
  List.sorted_insertionSort sevRel xs

lemma filter_orderedInsert_of_eq (q : ℚ) (a : Signal) (l : List Signal)
    (ha : tableWeight a.severity = q) :
    (l.orderedInsert sevRel a).filter (fun s => decide (tableWeight s.severity = q)) =
      a :: l.filter (fun s => decide (tableWeight s.severity = q)) := by
  induction l with
  | nil => simp [List.orderedInsert, ha]
  | cons b t ih =>
    by_cases hab : sevRel a b
    · rw [List.orderedInsert, if_pos hab]
      simp [List.filter_cons, ha]
    · rw [List.orderedInsert, if_neg hab]
      have hbq : ¬(tableWeight b.severity = q) := by
        intro hbe
        exact hab (le_of_eq (hbe.trans ha.symm))
      simp [List.filter_cons, hbq, ih]

lemma filter_orderedInsert_of_ne (q : ℚ) (a : Signal) (l : List Signal)
    (ha : ¬(tableWeight a.severity = q)) :
    (l.orderedInsert sevRel a).filter (fun s => decide (tableWeight s.severity = q)) =
      l.filter (fun s => decide (tableWeight s.severity = q)) := by
  induction l with
  | nil => simp [List.orderedInsert, ha]
  | cons b t ih =>
    by_cases hab : sevRel a b
    · rw [List.orderedInsert, if_pos hab]
      simp [List.filter_cons, ha]
    · rw [List.orderedInsert, if_neg hab]
      simp [List.filter_cons, ih]

/-- Stability: at each fixed severity weight, sorting preserves the original
relative order of the signals of that weight. -/
lemma sortBySeverity_filter (xs : List Signal) (q : ℚ) :
    (sortBySeverity xs).filter (fun s => decide (tableWeight s.severity = q)) =
      xs.filter (fun s => decide (tableWeight s.severity = q)) := by
  induction xs with
  | nil => rfl
  | cons a t ih =>
    rw [sortBySeverity_cons]
    by_cases ha : tableWeight a.severity = q
    · rw [filter_orderedInsert_of_eq q a _ ha, ih]
      simp [List.filter_cons, ha]
    · rw [filter_orderedInsert_of_ne q a _ ha, ih]
      simp [List.filter_cons, ha]

/-! ### Concrete score evaluations used by the claims -/

lemma calculateRiskScore_contract_social :
    calculateRiskScore [mkSignal ("1") ("contract_risk") ("high"),
      mkSignal ("2") ("social_sentiment") ("low")] = 44 := by
  simp [calculateRiskScore, signalScore, severityWeight, typeFactor, SEVERITY_WEIGHTS,
    TYPE_RISK_FACTORS, jsOr, jsRound, mkSignal]
  norm_num

/-! ### The claims -/

/-- C1: the spec's severity-weight table assigns weight 0 to severity `info`
and predicts score 0 for `[{type: honeypot, severity: info}]`.  The table in
the code does assign `info ↦ 0`, but `calculateRiskScore` reads it through
the JS fallback `SEVERITY_WEIGHTS[s.severity] || 1`, and `0` is falsy, so the
weight actually used is 1 and the score of that collection is 30, not 0. -/
theorem claim_C1_info_weight_fallback_bug :
    SEVERITY_WEIGHTS ("info") = some 0 ∧
      severityWeight (mkSignal ("s1") ("honeypot") ("info")) = 1 ∧
      calculateRiskScore [mkSignal ("s1") ("honeypot") ("info")] = 30 := by
  refine ⟨rfl, ?_, ?_⟩
  · simp [severityWeight, SEVERITY_WEIGHTS, jsOr, mkSignal]
  · simp [calculateRiskScore, signalScore, severityWeight, typeFactor, SEVERITY_WEIGHTS,
      TYPE_RISK_FACTORS, jsOr, jsRound, mkSignal]
    norm_num

/-- C2: on `[{type: contract_risk, severity: high}, {type: social_sentiment,
severity: low}]` the per-signal scores are 6 and 0.8, the final score is 44,
`getRiskLevel 44` is `medium`, and `isHighRisk` of the collection is false. -/
theorem claim_C2_concrete_end_to_end :
    signalScore (mkSignal ("1") ("contract_risk") ("high")) = 6 ∧
    signalScore (mkSignal ("2") ("social_sentiment") ("low")) = 0.8 ∧
    calculateRiskScore [mkSignal ("1") ("contract_risk") ("high"),
      mkSignal ("2") ("social_sentiment") ("low")] = 44 ∧
    getRiskLevel 44 = "medium" ∧
    isHighRisk [mkSignal ("1") ("contract_risk") ("high"),
      mkSignal ("2") ("social_sentiment") ("low")] = false := by
  refine ⟨?_, ?_, calculateRiskScore_contract_social, by decide, ?_⟩
  · simp [signalScore, severityWeight, typeFactor, SEVERITY_WEIGHTS, TYPE_RISK_FACTORS,
      jsOr, mkSignal]
    norm_num
  · simp [signalScore, severityWeight, typeFactor, SEVERITY_WEIGHTS, TYPE_RISK_FACTORS,
      jsOr, mkSignal]
    norm_num
  · simp only [isHighRisk, Bool.or_eq_false_iff, decide_eq_false_iff_not, not_le,
      List.any_eq_false]
    constructor
    · rw [calculateRiskScore_contract_social]; norm_num
    · intro s hs
      simp at hs
      rcases hs with rfl | rfl <;> simp [mkSignal]

/-- C3: `isHighRisk` is true exactly when the risk score reaches 70 or some
signal has type `honeypot`, type `rugpull_risk`, or severity `critical`; the
single info-severity honeypot signal triggers it, the empty collection does
not. -/
theorem claim_C3_isHighRisk_characterization :
    (∀ xs : List Signal, isHighRisk xs = true ↔
      (70 ≤ calculateRiskScore xs ∨ ∃ s ∈ xs,
        s.type = "honeypot" ∨ s.type = "rugpull_risk" ∨ s.severity = "critical")) ∧
    isHighRisk [mkSignal ("h1") ("honeypot") ("info")] = true ∧
    isHighRisk [] = false := by
  refine ⟨?_, ?_, ?_⟩
  · intro xs
    simp only [isHighRisk, Bool.or_eq_true, decide_eq_true_eq, List.any_eq_true,
      beq_iff_eq, or_assoc]
  · simp only [isHighRisk, Bool.or_eq_true, List.any_eq_true]
    right
    exact ⟨mkSignal ("h1") ("honeypot") ("info"), by simp, by simp [mkSignal]⟩
  · simp [isHighRisk, calculateRiskScore]

/-- C4: `calculateRiskScore` is total and bounded: it returns 0 on the empty
collection and always lands in `[0, 100]`, for arbitrary (also unrecognized)
severities and types. -/
theorem claim_C4_score_total_bounded :
    calculateRiskScore [] = 0 ∧
      ∀ xs : List Signal, 0 ≤ calculateRiskScore xs ∧ calculateRiskScore xs ≤ 100 :=
  ⟨rfl, fun xs => ⟨calculateRiskScore_nonneg xs, calculateRiskScore_le_100 xs⟩⟩

/-- C5: `getRiskLevel` buckets are left-inclusive with thresholds 20, 40, 60,
80, checked at the boundary scores and in general. -/
theorem claim_C5_riskLevel_thresholds :
    (getRiskLevel 19 = "safe" ∧ getRiskLevel 20 = "low" ∧ getRiskLevel 39 = "low" ∧
      getRiskLevel 40 = "medium" ∧ getRiskLevel 59 = "medium" ∧ getRiskLevel 60 = "high" ∧
      getRiskLevel 79 = "high" ∧ getRiskLevel 80 = "critical") ∧
    (∀ q : ℚ, q < 20 → getRiskLevel q = "safe") ∧
    (∀ q : ℚ, 20 ≤ q → q < 40 → getRiskLevel q = "low") ∧
    (∀ q : ℚ, 40 ≤ q → q < 60 → getRiskLevel q = "medium") ∧
    (∀ q : ℚ, 60 ≤ q → q < 80 → getRiskLevel q = "high") ∧
    (∀ q : ℚ, 80 ≤ q → getRiskLevel q = "critical") := by
  refine ⟨⟨by decide, by decide, by decide, by decide, by decide, by decide, by decide,
    by decide⟩, ?_, ?_, ?_, ?_, ?_⟩
  · intro q h
    simp only [getRiskLevel]
    rw [if_pos h]
  · intro q h1 h2
    simp only [getRiskLevel]
    rw [if_neg (by linarith), if_pos h2]
  · intro q h1 h2
    simp only [getRiskLevel]
    rw [if_neg (by linarith), if_neg (by linarith), if_pos h2]
  · intro q h1 h2
    simp only [getRiskLevel]
    rw [if_neg (by linarith), if_neg (by linarith), if_neg (by linarith), if_pos h2]
  · intro q h1
    simp only [getRiskLevel]
    rw [if_neg (by linarith), if_neg (by linarith), if_neg (by linarith),
      if_neg (by linarith)]

theorem claim_C5_witness : getRiskLevel 55 = "medium" :=
  claim_C5_riskLevel_thresholds.2.2.2.1 55 (by norm_num) (by norm_num)

/-- C6: appending a signal of severity `critical` and type `rugpull_risk`
never decreases `calculateRiskScore` and always makes `isHighRisk` true. -/
theorem claim_C6_append_critical_rugpull (xs : List Signal) (r : Signal)
    (hsev : r.severity = "critical") (hty : r.type = "rugpull_risk") :
    calculateRiskScore xs ≤ calculateRiskScore (xs ++ [r]) ∧
      isHighRisk (xs ++ [r]) = true := by
  constructor
  · exact calculateRiskScore_append_max xs r (signalScore_critical_rugpull r hsev hty)
  · simp only [isHighRisk, Bool.or_eq_true, List.any_eq_true]
    right
    exact ⟨r, by simp, by simp [hsev]⟩

theorem claim_C6_witness :
    calculateRiskScore [mkSignal ("a") ("whale_movement") ("low")] ≤
      calculateRiskScore ([mkSignal ("a") ("whale_movement") ("low")] ++
        [mkSignal ("r") ("rugpull_risk") ("critical")]) ∧
    isHighRisk ([mkSignal ("a") ("whale_movement") ("low")] ++
      [mkSignal ("r") ("rugpull_risk") ("critical")]) = true :=
  claim_C6_append_critical_rugpull [mkSignal ("a") ("whale_movement") ("low")]
    (mkSignal ("r") ("rugpull_risk") ("critical")) rfl rfl

/-- C7: `sortBySeverity` returns a permutation of its input, ordered by
non-increasing severity weight, in which signals of equal severity weight
keep their original relative order; `[A(high), B(medium), C(high)]` sorts to
`[A, C, B]`.  (The embedding is pure, so the input collection itself is
untouched by construction.) -/
theorem claim_C7_sort_stable_descending :
    (∀ xs : List Signal,
      List.Perm (sortBySeverity xs) xs ∧
      List.Sorted sevRel (sortBySeverity xs) ∧
      ∀ q : ℚ, (sortBySeverity xs).filter (fun s => decide (tableWeight s.severity = q)) =
        xs.filter (fun s => decide (tableWeight s.severity = q))) ∧
    sortBySeverity [mkSignal ("A") ("whale_movement") ("high"),
        mkSignal ("B") ("whale_movement") ("medium"),
        mkSignal ("C") ("whale_movement") ("high")] =
      [mkSignal ("A") ("whale_movement") ("high"),
        mkSignal ("C") ("whale_movement") ("high"),
        mkSignal ("B") ("whale_movement") ("medium")] :=
  ⟨fun xs => ⟨sortBySeverity_perm xs, sortBySeverity_sorted xs, sortBySeverity_filter xs⟩,
    by decide⟩

/-- C8: for a recognized `minSeverity` and recognized signal severities,
`filterBySeverity` keeps exactly the signals whose severity weight is at
least the weight of `minSeverity`, in order; with `minSeverity = medium` it
keeps the medium, high and critical signals. -/
theorem claim_C8_filter_inclusive_threshold :
    (∀ (xs : List Signal) (m : String),
      (SEVERITY_WEIGHTS m).isSome = true →
      (∀ s ∈ xs, (SEVERITY_WEIGHTS s.severity).isSome = true) →
      filterBySeverity xs m =
        xs.filter (fun s => decide (tableWeight m ≤ tableWeight s.severity))) ∧
    filterBySeverity [mkSignal ("1") ("honeypot") ("info"),
        mkSignal ("2") ("honeypot") ("low"),
        mkSignal ("3") ("honeypot") ("medium"),
        mkSignal ("4") ("honeypot") ("high"),
        mkSignal ("5") ("honeypot") ("critical")] ("medium") =
      [mkSignal ("3") ("honeypot") ("medium"),
        mkSignal ("4") ("honeypot") ("high"),
        mkSignal ("5") ("honeypot") ("critical")] := by
  constructor
  · intro xs m hm hall
    unfold filterBySeverity
    exact List.filter_congr fun s hs => jsGE_eq_tableWeight (hall s hs) hm
  · decide

theorem claim_C8_witness :
    filterBySeverity [mkSignal ("1") ("honeypot") ("info")] ("medium") =
      [mkSignal ("1") ("honeypot") ("info")].filter
        (fun s => decide (tableWeight ("medium") ≤ tableWeight s.severity)) :=
  claim_C8_filter_inclusive_threshold.1 [mkSignal ("1") ("honeypot") ("info")]
    ("medium") (by decide) (by decide)

/-- C9: `getCriticalSignals` keeps exactly the signals of severity `critical`
or `high`, in order, and on recognized severities it agrees with
`filterBySeverity` at threshold `high`. -/
theorem claim_C9_criticalSignals_breadth :
    ∀ xs : List Signal,
      getCriticalSignals xs =
        xs.filter (fun s => s.severity == "critical" || s.severity == "high") ∧
      ((∀ s ∈ xs, (SEVERITY_WEIGHTS s.severity).isSome = true) →
        getCriticalSignals xs = filterBySeverity xs ("high")) := by
  intro xs
  refine ⟨rfl, ?_⟩
  intro hall
  unfold getCriticalSignals filterBySeverity
  refine List.filter_congr fun s hs => ?_
  rcases severity_of_isSome (hall s hs) with h | h | h | h | h <;> rw [h] <;> decide

theorem claim_C9_witness :
    getCriticalSignals [mkSignal ("1") ("honeypot") ("medium"),
        mkSignal ("2") ("honeypot") ("high"),
        mkSignal ("3") ("honeypot") ("critical")] =
      filterBySeverity [mkSignal ("1") ("honeypot") ("medium"),
        mkSignal ("2") ("honeypot") ("high"),
        mkSignal ("3") ("honeypot") ("critical")] ("high") :=
  (claim_C9_criticalSignals_breadth [mkSignal ("1") ("honeypot") ("medium"),
    mkSignal ("2") ("honeypot") ("high"),
    mkSignal ("3") ("honeypot") ("critical")]).2 (by decide)

/-- C10: `formatSignal` depends only on severity, title and summary: any two
signals agreeing on those three fields format identically, and the rendering
is the severity indicator, the upper-cased severity label in brackets, the
title and the summary joined by fixed punctuation. -/
theorem claim_C10_formatSignal_pure_in_three_fields :
    ∀ s t : Signal, s.severity = t.severity → s.title = t.title → s.summary = t.summary →
      formatSignal s = formatSignal t ∧
      formatSignal s = (severityEmoji s.severity).getD ("undefined") ++ " [" ++
        s.severity.toUpper ++ "] " ++ s.title ++ ": " ++ s.summary := by
  intro s t h1 h2 h3
  constructor
  · simp [formatSignal, h1, h2, h3]
  · rfl

theorem claim_C10_witness :
    formatSignal
        (Signal.mk ("a") ("honeypot") ("high") ("T") ("S") (some ("d")) 5
          (some [("k", "v")])) =
      formatSignal
        (Signal.mk ("b") ("social_sentiment") ("high") ("T") ("S") none 0 none) :=
  (claim_C10_formatSignal_pure_in_three_fields _ _ rfl rfl rfl).1

end ClawFi
